import Mathlib

/-!
Verification of the bundle deployment engine (cmd/juju/commands/bundle.go
and the charm-store client glue), as a shallow embedding in Lean.

Remote collaborators (the control-plane API client, the charm store, the
random number generator, the mega-watcher stream) are modelled as explicit
oracle inputs, so every handler is a pure function from its inputs and the
oracle responses to its result, side effects (results table, unit-status
view, logs, API calls) being threaded through an explicit state record.
A Go panic or a potentially non-terminating wait is modelled as the `none`
outcome of an `Option` result.
-/

set_option maxRecDepth 10000

deriving instance DecidableEq for Except

namespace Juju

/-! ### Basic string and table helpers

The Go `map[string]string` tables are modelled as association lists where
an assignment conses a fresh binding at the front and lookup takes the
first binding; a missing key yields the empty string, as in Go. -/

def lookupD (m : List (String × String)) (k : String) : String :=
  (m.lookup k).getD ""

def setKey (m : List (String × String)) (k v : String) : List (String × String) :=
  (k, v) :: m

/-- Embeds `strings.HasPrefix`. -/
def strStarts (s p : String) : Bool := p.data.isPrefixOf s.data

/-- Embeds `strings.HasSuffix`. -/
def strEnds (s p : String) : Bool := p.data.isSuffixOf s.data

/-- Formatting of a string argument as by the `%q` verb. -/
def quoteStr (s : String) : String := "\"" ++ s ++ "\""

/-- Embeds `errors.Annotate` and `errors.Annotatef`: prepend a message to an error. -/
def annotateErr (msg err : String) : String := msg ++ ": " ++ err

/-- Split a character list on a separator (`strings.Split` semantics:
splitting the empty string yields one empty part). -/
def splitChars (sep : Char) : List Char → List (List Char)
  | [] => [[]]
  | c :: rest =>
    if c = sep then [] :: splitChars sep rest
    else
      match splitChars sep rest with
      | [] => [[c]]
      | h :: t => (c :: h) :: t

/-- Embeds `strings.Split` for a one-character separator. -/
def splitStr (s : String) (sep : Char) : List String :=
  (splitChars sep s.data).map String.mk

/-- Decimal value of a digit list. -/
def digitsToNat (l : List Char) : Nat :=
  l.foldl (fun n c => n * 10 + (c.toNat - 48)) 0

/-! ### Charm URLs

Modelled from the spec: charm URLs come from the external charm library
(gopkg.in/juju/charm), which is not part of this repository.  A charm URL
has the printed form `schema:[~user/][series/]name[-revision]`, where the
revision suffix is present only when the revision is non-negative. -/

structure CharmURL where
  schema : String
  user : String
  series : String
  name : String
  revision : Int
deriving DecidableEq, Repr

/-- Embeds `URL.Path()`: everything after the schema colon. -/
def CharmURL.path (u : CharmURL) : String :=
  (if u.user ≠ "" then "~" ++ u.user ++ "/" else "")
    ++ (if u.series ≠ "" then u.series ++ "/" else "")
    ++ u.name
    ++ (if u.revision ≥ 0 then "-" ++ toString u.revision else "")

/-- Embeds `URL.WithRevision(r)`. -/
def CharmURL.withRevision (u : CharmURL) (r : Int) : CharmURL :=
  { u with revision := r }

/-- Embeds `URL.String()`. -/
def CharmURL.str (u : CharmURL) : String := u.schema ++ ":" ++ u.path

/-- Modelled from the spec: splits a trailing `-<digits>` revision off a
charm name, as the external charm library parser does. -/
def parseRevision (nm : String) : String × Int :=
  match splitStr nm '-' with
  | [] => (nm, -1)
  | [_] => (nm, -1)
  | parts =>
    let lastPart := parts.getLastD ""
    if lastPart != "" && lastPart.data.all Char.isDigit then
      (String.intercalate "-" parts.dropLast, Int.ofNat (digitsToNat lastPart.data))
    else (nm, -1)

/-- Modelled from the spec: `charm.ParseURL` of the external charm library,
accepting `schema:[~user/][series/]name[-revision]` with schema `cs` or
`local` (`cs` when omitted), and rejecting malformed shapes. -/
def parseURL (s : String) : Option CharmURL :=
  let sr : String × String :=
    match splitStr s ':' with
    | [r] => ("cs", r)
    | sc :: more => (sc, String.intercalate ":" more)
    | [] => ("cs", "")
  let schema := sr.1
  let rest := sr.2
  if schema != "cs" && schema != "local" then none
  else
    let mk : String → String → String → Option CharmURL := fun user series nm =>
      if nm == "" then none
      else
        let br := parseRevision nm
        if br.1 == "" then none
        else some { schema := schema, user := user, series := series,
                    name := br.1, revision := br.2 }
    match splitStr rest '/' with
    | [nm] => mk "" "" nm
    | [a, nm] =>
      if strStarts a "~" then mk (String.mk a.data.tail) "" nm else mk "" a nm
    | [a, b, nm] =>
      if strStarts a "~" then mk (String.mk a.data.tail) b nm else none
    | _ => none

/-! ### Unit names

Modelled from the spec: the external names library (github.com/juju/names)
treats a unit name as valid when it has the form `service/integer`;
`names.UnitService` returns the service part and fails on anything else. -/

def isValidUnit (s : String) : Bool :=
  match splitStr s '/' with
  | [svc, num] => svc != "" && num != "" && num.data.all Char.isDigit
  | _ => false

def unitService (s : String) : Option String :=
  match splitStr s '/' with
  | [svc, num] =>
    if svc != "" && num != "" && num.data.all Char.isDigit then some svc else none
  | _ => none

/-! ### The placeholder resolver (bundle.go, `resolve` / `resolveRelation`) -/

/-- Embeds `resolve` (bundle.go): a placeholder must start with `$`; the dollar is
stripped and the remainder looked up in the results table, defaulting to
the empty string.  A placeholder without the leading `$` makes the Go code
panic, modelled by `none`. -/
def resolve (placeholder : String) (results : List (String × String)) : Option String :=
  match placeholder.data with
  | [] => none
  | c :: rest => if c = '$' then some (lookupD results (String.mk rest)) else none

/-- Embeds `resolveRelation` (bundle.go): split the endpoint on the first colon,
resolve the service part, re-attach the relation name when present. -/
def resolveRelation (e : String) (results : List (String × String)) : Option String :=
  match splitStr e ':' with
  | [] => none
  | [p0] => resolve p0 results
  | p0 :: more =>
    (resolve p0 results).map (fun svc => svc ++ ":" ++ String.intercalate ":" more)

/-! ### Charm store client glue (the unnamed source file with
`addCharmViaAPI` and `csClient.authorize`) -/

/-- A macaroon, kept abstract except for its caveat list, which is all
`csClient.authorize` touches. -/
structure Macaroon where
  caveats : List String
deriving DecidableEq, Repr

/-- A control-plane `AddCharm` error, classified by `isBakeryError`:
either a discharge-required / interaction-required (bakery) response or
any other error. -/
inductive AddCharmErr where
  | bakery (msg : String)
  | other (msg : String)
deriving DecidableEq, Repr

/-- Embeds `csClient.authorize`: fetch the delegatable macaroon from the charm
store and attenuate it with the first-party caveat naming the charm. -/
def csClientAuthorize (getMacaroon : Except String Macaroon) (curl : CharmURL) :
    Except String Macaroon :=
  match getMacaroon with
  | .error e => .error e
  | .ok m => .ok { m with caveats := m.caveats ++ ["is-entity " ++ curl.str] }

/-- The collaborators of `addCharmViaAPI`, as oracles. -/
structure ViaAPIEnv where
  repoGet : CharmURL → Except String Unit
  addLocalCharm : CharmURL → Except String CharmURL
  addCharmCall : CharmURL → Option AddCharmErr
  getMacaroon : Except String Macaroon
  addCharmWithAuthorization : CharmURL → Macaroon → Option String

/-- Outcome of `addCharmViaAPI`: the returned URL or error, together with
the macaroons passed to `AddCharmWithAuthorization`, in call order. -/
structure ViaAPIResult where
  result : Except String CharmURL
  authCalls : List Macaroon
deriving DecidableEq, Repr

/-- Embeds `addCharmViaAPI` (charm store glue file): dispatch on the URL schema;
for `cs:` charms call the control-plane `AddCharm`, and on a bakery error
acquire an attenuated macaroon and retry once with authorization. -/
def addCharmViaAPI (env : ViaAPIEnv) (curl : CharmURL) : ViaAPIResult :=
  if curl.schema == "local" then
    match env.repoGet curl with
    | .error e => { result := .error e, authCalls := [] }
    | .ok _ =>
      match env.addLocalCharm curl with
      | .error e => { result := .error e, authCalls := [] }
      | .ok stateCurl => { result := .ok stateCurl, authCalls := [] }
  else if curl.schema == "cs" then
    match env.addCharmCall curl with
    | none => { result := .ok curl, authCalls := [] }
    | some (.other e) => { result := .error e, authCalls := [] }
    | some (.bakery _) =>
      match csClientAuthorize env.getMacaroon curl with
      | .error e2 => { result := .error e2, authCalls := [] }
      | .ok m =>
        match env.addCharmWithAuthorization curl m with
        | some e3 => { result := .error e3, authCalls := [m] }
        | none => { result := .ok curl, authCalls := [m] }
  else
    { result := .error ("unsupported charm URL schema: " ++ quoteStr curl.schema),
      authCalls := [] }

/-! ### The control-plane call trace -/

/-- One call made by a handler against the control-plane API client. -/
inductive ApiCall where
  | serviceDeploy (charm service : String)
  | serviceGetCharmURL (service : String)
  | serviceSetCharm (service url : String)
  | serviceSetYAML (service : String)
  | addMachinesCall
  | addServiceUnits (service : String) (machineSpec : String)
  | addRelationCall (ep1 ep2 : String)
  | addCharmAPICall (url : CharmURL)
deriving DecidableEq, Repr

/-! ### `upgradeCharm` (bundle.go) -/

/-- Outcome of `upgradeCharm`: result, client calls made, log lines. -/
structure UpgradeResult where
  result : Except String Unit
  calls : List ApiCall
  logs : List String
deriving DecidableEq, Repr

/-- Embeds `upgradeCharm` (bundle.go): reuse the existing service when its charm
URL already equals the bundle's charm id; otherwise require both URLs to
share the revision-stripped path and set-charm to the new id. -/
def upgradeCharm (getCharmURL : Except String CharmURL)
    (setCharm : String → String → Option String) (service id : String) :
    UpgradeResult :=
  match getCharmURL with
  | .error e =>
    { result := .error (annotateErr ("cannot retrieve info for service " ++ quoteStr service) e),
      calls := [.serviceGetCharmURL service], logs := [] }
  | .ok existing =>
    if existing.str == id then
      { result := .ok (),
        calls := [.serviceGetCharmURL service],
        logs := ["reusing service " ++ service ++ " (charm: " ++ id ++ ")"] }
    else
      match parseURL id with
      | none =>
        { result := .error (annotateErr ("cannot parse charm URL " ++ quoteStr id) "parse error"),
          calls := [.serviceGetCharmURL service], logs := [] }
      | some url =>
        if (url.withRevision (-1)).path != (existing.withRevision (-1)).path then
          { result := .error ("bundle charm " ++ quoteStr id
              ++ " is incompatible with existing charm " ++ quoteStr existing.str),
            calls := [.serviceGetCharmURL service], logs := [] }
        else
          match setCharm service id with
          | some e =>
            { result := .error (annotateErr ("cannot upgrade charm to " ++ quoteStr id) e),
              calls := [.serviceGetCharmURL service, .serviceSetCharm service id],
              logs := [] }
          | none =>
            { result := .ok (),
              calls := [.serviceGetCharmURL service, .serviceSetCharm service id],
              logs := ["upgraded charm for existing service " ++ service
                ++ " (from " ++ existing.str ++ " to " ++ id ++ ")"] }

/-- Embeds `existingUnitsMessage` (bundle.go). -/
def existingUnitsMessage (num : Nat) : String :=
  if num == 1 then "1 unit already present"
  else toString num ++ " units already present"

/-! ### Change records

The typed change records produced by the external planner
(github.com/juju/bundlechanges): a unique id, the ids of prerequisite
changes, and a kind-specific parameter bundle. -/

inductive ChangeData where
  | addCharm (charm : String)
  | addMachine (series constraintsStr containerType parentId : String)
  | addService (charm service : String) (options : List (String × String))
  | addUnit (service toSpec : String)
  | addRelation (ep1 ep2 : String)
  | setAnnotations
deriving DecidableEq, Repr

structure Change where
  id : String
  requires : List String
  data : ChangeData
deriving DecidableEq, Repr

def ChangeData.isSetAnnotations : ChangeData → Bool
  | .setAnnotations => true
  | _ => false

def ChangeData.isAddMachine : ChangeData → Bool
  | .addMachine _ _ _ _ => true
  | _ => false

def ChangeData.isAddUnit : ChangeData → Bool
  | .addUnit _ _ => true
  | _ => false

/-! ### `serviceForMachineChange` (bundle.go)

The Go code scans the change list in order for the first change whose
dependency set contains the given machine-change id, skipping
`SetAnnotations` changes (they require the machine but are not the
interesting dependents). -/

def firstDependent (id : String) : List Change → Option Change
  | [] => none
  | c :: rest =>
    if c.requires.contains id && !c.data.isSetAnnotations then some c
    else firstDependent id rest

/-- Outcome of `serviceForMachineChange`: either a Go panic (unexpected
dependent kind, exhausted search, or misformed placeholder) or the found
service name. -/
inductive SvcRes where
  | panicRes
  | found (service : String)
deriving DecidableEq, Repr

/-- Embeds `serviceForMachineChange` (bundle.go), with explicit fuel standing for
the recursion depth: follow the first relevant dependent of the machine
change; a dependent machine change (a container) makes the search recurse
on its id, a dependent unit change resolves and returns the unit's
service, anything else panics.  `none` means the fuel ran out, which on
the Go side is a diverging recursion. -/
def serviceForMachineChange (changes : List Change)
    (results : List (String × String)) : Nat → String → Option SvcRes
  | 0, _ => none
  | fuel + 1, id =>
    match firstDependent id changes with
    | none => some .panicRes
    | some c =>
      match c.data with
      | .addMachine _ _ _ _ => serviceForMachineChange changes results fuel c.id
      | .addUnit svc _ =>
        match resolve svc results with
        | none => some .panicRes
        | some s => some (.found s)
      | _ => some .panicRes

/-! ### The unit-status view (bundle.go, `machinesForService`,
`updateUnitStatus`, `resolveMachine`) -/

/-- Embeds `machinesForService` (bundle.go): the machines of every unit in the
unit-status view that belongs to the given service, one entry per unit;
`none` models the Go panic on a malformed unit name. -/
def machinesForService (unitStatus : List (String × String)) (service : String) :
    Option (List String) :=
  match unitStatus with
  | [] => some []
  | (unit, machine) :: rest =>
    match unitService unit with
    | none => none
    | some svc =>
      match machinesForService rest service with
      | none => none
      | some ms => if svc == service then some (machine :: ms) else some ms

/-- One `watcher.Next()` response: an error or a batch of unit-info
deltas, each mapping a unit name to its machine id (deltas for other
entity kinds are ignored by `updateUnitStatus` and therefore omitted). -/
abbrev WatchNext := Except String (List (String × String))

/-- Embeds `updateUnitStatus` (bundle.go): apply one watcher delta batch to the
unit-status view. -/
def updateUnitStatus (us : List (String × String)) : WatchNext →
    Except String (List (String × String))
  | .error e => .error (annotateErr "cannot update environment status" e)
  | .ok deltas => .ok (deltas.foldl (fun m d => setKey m d.1 d.2) us)

/-- The waiting loop of `resolveMachine` (bundle.go): while the unit's
machine is unknown, advance the watcher.  The remaining stream is finite
here; running out of stream (`none`) models the Go code blocking
forever. -/
def resolveMachineLoop (unit : String) (us : List (String × String))
    (stream : List WatchNext) :
    Option (Except String (String × List (String × String) × List WatchNext)) :=
  if lookupD us unit ≠ "" then some (.ok (lookupD us unit, us, stream))
  else
    match stream with
    | [] => none
    | n :: rest =>
      match updateUnitStatus us n with
      | .error e => some (.error (annotateErr "cannot resolve machine" e))
      | .ok us' => resolveMachineLoop unit us' rest

/-- Embeds `resolveMachine` (bundle.go): resolve the placeholder; a value that is
not a valid unit name is returned unchanged, a unit name makes the
handler wait on the watcher until the unit's machine id is known. -/
def resolveMachine (placeholder : String) (results : List (String × String))
    (us : List (String × String)) (stream : List WatchNext) :
    Option (Except String (String × List (String × String) × List WatchNext)) :=
  match resolve placeholder results with
  | none => none
  | some v =>
    if isValidUnit v then resolveMachineLoop v us stream
    else some (.ok (v, us, stream))

/-! ### The change applicator (bundle.go, `deployBundle` and the
`bundleHandler` methods)

The control plane, the charm source, the constraints and container-type
parsers, and the random number generator are oracles collected in `Env`;
the mutable fields of `bundleHandler` are the `DeployState` record. -/

/-- Embeds `params.AddMachineParams`, restricted to the fields the handler
fills. -/
structure MachineParams where
  series : String
  constraintsStr : String
  containerType : String
  parentId : String
deriving DecidableEq, Repr

/-- The oracle responses of every external collaborator used by the
handlers.  `addMachines` returns either a transport error or the first
result entry (itself an error or a machine id); `rand n` models
`rand.Intn(n)` and is reduced modulo `n` at use sites. -/
structure Env where
  resolveURL : String → Except String CharmURL
  addCharmAPI : CharmURL → Except String CharmURL
  serviceDeploy : String → String → Option String
  serviceGetCharmURL : String → Except String CharmURL
  serviceSetCharm : String → String → Option String
  marshalOptions : String → List (String × String) → Except String String
  serviceSetYAML : String → String → Option String
  parseConstraints : String → Option String
  parseContainerType : String → Option String
  addMachines : MachineParams → Except String (Except String String)
  addServiceUnits : String → String → Except String String
  addRelation : String → String → Option String
  rand : Nat → Nat
  numUnits : String → Nat

/-- The mutable state of `bundleHandler`, together with the emitted log
lines and the trace of control-plane calls. -/
structure DeployState where
  results : List (String × String)
  unitStatus : List (String × String)
  ignoredMachines : List String
  ignoredUnits : List String
  stream : List WatchNext
  logs : List String
  calls : List ApiCall
deriving DecidableEq, Repr

/-- Embeds `bundleHandler.addCharm`: resolve the reference, reject bundle URLs,
add the charm through the API and record the fully resolved URL under
`resolved-<reference>`. -/
def handleAddCharm (env : Env) (s : DeployState) (charm : String) :
    Option (DeployState × Option String) :=
  match env.resolveURL charm with
  | .error e => some (s, some (annotateErr ("cannot resolve URL " ++ quoteStr charm) e))
  | .ok url =>
    if url.series == "bundle" then
      some (s, some ("expected charm URL, got bundle URL " ++ quoteStr charm))
    else
      match env.addCharmAPI url with
      | .error e =>
        some ({ s with calls := s.calls ++ [.addCharmAPICall url] },
              some (annotateErr ("cannot add charm " ++ quoteStr charm) e))
      | .ok url2 =>
        some ({ s with
                calls := s.calls ++ [.addCharmAPICall url],
                logs := s.logs ++ ["added charm " ++ url2.str],
                results := setKey s.results ("resolved-" ++ charm) url2.str }, none)

/-- Embeds `bundleHandler.addService`: deploy the service with the charm looked
up under `resolved-<reference>`; on an "already exists" error enter the
upgrade path; then set options when present and record the service
name. -/
def handleAddService (env : Env) (s : DeployState) (id charm service : String)
    (options : List (String × String)) : Option (DeployState × Option String) :=
  let ch := lookupD s.results ("resolved-" ++ charm)
  let afterDeploy : DeployState × Option String :=
    match env.serviceDeploy ch service with
    | none =>
      ({ s with
         calls := s.calls ++ [.serviceDeploy ch service],
         logs := s.logs ++ ["service " ++ service ++ " deployed (charm: " ++ ch ++ ")"] },
       none)
    | some e =>
      if strEnds e "service already exists" then
        let u := upgradeCharm (env.serviceGetCharmURL service) env.serviceSetCharm service ch
        let s1 := { s with
                    calls := s.calls ++ [.serviceDeploy ch service] ++ u.calls,
                    logs := s.logs ++ u.logs }
        match u.result with
        | .error e2 => (s1, some (annotateErr ("cannot upgrade service " ++ quoteStr service) e2))
        | .ok _ => (s1, none)
      else
        ({ s with calls := s.calls ++ [.serviceDeploy ch service] },
         some (annotateErr ("cannot deploy service " ++ quoteStr service) e))
  match afterDeploy with
  | (s1, some e) => some (s1, some e)
  | (s1, none) =>
    if options.isEmpty then
      some ({ s1 with results := setKey s1.results id service }, none)
    else
      match env.marshalOptions service options with
      | .error e =>
        some (s1, some (annotateErr ("cannot marshal options for service " ++ quoteStr service) e))
      | .ok cfg =>
        match env.serviceSetYAML service cfg with
        | some e =>
          some ({ s1 with calls := s1.calls ++ [.serviceSetYAML service] },
                some (annotateErr ("cannot set options for service " ++ quoteStr service) e))
        | none =>
          some ({ s1 with
                  calls := s1.calls ++ [.serviceSetYAML service],
                  logs := s1.logs ++ ["service " ++ service ++ " configured"],
                  results := setKey s1.results id service }, none)

/-- Embeds `bundleHandler.addMachine`: find the hosted service through the change
graph; when enough units already exist, report once per service and
record a pseudo-result picked from the existing machines; otherwise
create the machine (or container) through the API. -/
def handleAddMachine (env : Env) (all : List Change) (s : DeployState)
    (id series constraintsStr containerType parentId : String) :
    Option (DeployState × Option String) :=
  match serviceForMachineChange all s.results (all.length + 1) id with
  | none => none
  | some .panicRes => none
  | some (.found service) =>
    match machinesForService s.unitStatus service with
    | none => none
    | some machines =>
      let numExisting := machines.length
      if numExisting ≥ env.numUnits service then
        if numExisting == 0 then none
        else
          let s1 :=
            if s.ignoredMachines.contains service then s
            else { s with
                   ignoredMachines := service :: s.ignoredMachines,
                   logs := s.logs ++ ["avoid creating other machines to host " ++ service
                     ++ " units: " ++ existingUnitsMessage numExisting] }
          let picked := machines.getD (env.rand numExisting % numExisting) ""
          some ({ s1 with results := setKey s1.results id picked }, none)
      else
        match env.parseConstraints constraintsStr with
        | some e => some (s, some (annotateErr "invalid constraints for machine" e))
        | none =>
          let contStep : Option (Except String (String × DeployState)) :=
            if containerType == "" then some (.ok ("", s))
            else
              match env.parseContainerType containerType with
              | some e =>
                some (.error (annotateErr ("cannot create machine for hosting "
                  ++ quoteStr service ++ " unit") e))
              | none =>
                if parentId == "" then some (.ok ("", s))
                else
                  match resolveMachine parentId s.results s.unitStatus s.stream with
                  | none => none
                  | some (.error e) =>
                    some (.error (annotateErr ("cannot retrieve parent placement for "
                      ++ quoteStr service ++ " unit") e))
                  | some (.ok (parent, us', st')) =>
                    some (.ok (parent, { s with unitStatus := us', stream := st' }))
          match contStep with
          | none => none
          | some (.error e) => some (s, some e)
          | some (.ok (parent, s1)) =>
            let mp : MachineParams := { series := series, constraintsStr := constraintsStr,
                                        containerType := containerType, parentId := parent }
            let s2 := { s1 with calls := s1.calls ++ [.addMachinesCall] }
            match env.addMachines mp with
            | .error e =>
              some (s2, some (annotateErr ("cannot create machine for hosting "
                ++ quoteStr service ++ " unit") e))
            | .ok (.error e) => some (s2, some e)
            | .ok (.ok machine) =>
              let logLine :=
                if containerType == "" then
                  "created new machine " ++ machine ++ " for holding " ++ service ++ " unit"
                else if parentId == "" then
                  "created " ++ machine ++ " container in new machine for holding "
                    ++ service ++ " unit"
                else
                  "created " ++ machine ++ " container in machine " ++ parent
                    ++ " for holding " ++ service ++ " unit"
              some ({ s2 with
                      logs := s2.logs ++ [logLine],
                      results := setKey s2.results id machine }, none)

/-- Embeds `bundleHandler.addRelation`: resolve both endpoints and call the API;
an error ending in "relation already exists" is reported and treated as
success, any other error is fatal. -/
def handleAddRelation (env : Env) (s : DeployState) (e1 e2 : String) :
    Option (DeployState × Option String) :=
  match resolveRelation e1 s.results, resolveRelation e2 s.results with
  | some ep1, some ep2 =>
    let s1 := { s with calls := s.calls ++ [.addRelationCall ep1 ep2] }
    match env.addRelation ep1 ep2 with
    | none =>
      some ({ s1 with logs := s1.logs ++ ["related " ++ ep1 ++ " and " ++ ep2] }, none)
    | some e =>
      if strEnds e "relation already exists" then
        some ({ s1 with logs := s1.logs ++ [ep1 ++ " and " ++ ep2 ++ " are already related"] },
              none)
      else
        some (s1, some (annotateErr ("cannot add relation between " ++ quoteStr ep1
          ++ " and " ++ quoteStr ep2) e))
  | _, _ => none

/-- Embeds `bundleHandler.addUnit`: when enough units already exist, report once
per service and record a pseudo-result picked from the existing machines;
otherwise resolve the placement, add one unit and record the machine spec
or the unit name, updating the unit-status view. -/
def handleAddUnit (env : Env) (s : DeployState) (id svcPlaceholder toSpec : String) :
    Option (DeployState × Option String) :=
  match resolve svcPlaceholder s.results with
  | none => none
  | some service =>
    match machinesForService s.unitStatus service with
    | none => none
    | some machines =>
      let numExisting := machines.length
      if numExisting ≥ env.numUnits service then
        if numExisting == 0 then none
        else
          let s1 :=
            if s.ignoredUnits.contains service then s
            else { s with
                   ignoredUnits := service :: s.ignoredUnits,
                   logs := s.logs ++ ["avoid adding new units to service " ++ service
                     ++ ": " ++ existingUnitsMessage numExisting] }
          let picked := machines.getD (env.rand numExisting % numExisting) ""
          some ({ s1 with results := setKey s1.results id picked }, none)
      else
        let specStep : Option (Except String (String × DeployState)) :=
          if toSpec == "" then some (.ok ("", s))
          else
            match resolveMachine toSpec s.results s.unitStatus s.stream with
            | none => none
            | some (.error e) =>
              some (.error (annotateErr ("cannot retrieve placement for "
                ++ quoteStr service ++ " unit") e))
            | some (.ok (spec, us', st')) =>
              some (.ok (spec, { s with unitStatus := us', stream := st' }))
        match specStep with
        | none => none
        | some (.error e) => some (s, some e)
        | some (.ok (machineSpec, s1)) =>
          let s2 := { s1 with calls := s1.calls ++ [.addServiceUnits service machineSpec] }
          match env.addServiceUnits service machineSpec with
          | .error e =>
            some (s2, some (annotateErr ("cannot add unit for service "
              ++ quoteStr service) e))
          | .ok unit =>
            let s3 :=
              if machineSpec == "" then
                { s2 with
                  logs := s2.logs ++ ["added " ++ unit ++ " unit to new machine"],
                  results := setKey s2.results id unit }
              else
                { s2 with
                  logs := s2.logs ++ ["added " ++ unit ++ " unit to machine "
                    ++ machineSpec],
                  results := setKey s2.results id machineSpec }
            some ({ s3 with unitStatus := setKey s3.unitStatus unit machineSpec }, none)

/-- The dispatch of `deployBundle` on the change kind
(`setAnnotations` is an unimplemented no-op in the source). -/
def applyOne (env : Env) (all : List Change) (s : DeployState) (c : Change) :
    Option (DeployState × Option String) :=
  match c.data with
  | .addCharm charm => handleAddCharm env s charm
  | .addMachine series cons ct parent => handleAddMachine env all s c.id series cons ct parent
  | .addRelation e1 e2 => handleAddRelation env s e1 e2
  | .addService charm svc opts => handleAddService env s c.id charm svc opts
  | .addUnit svc toSpec => handleAddUnit env s c.id svc toSpec
  | .setAnnotations => some (s, none)

/-- The main loop of `deployBundle`: apply the given changes in order,
stopping with an annotated error at the first failing handler.  `none`
models a Go panic or divergence inside a handler. -/
def runChanges (env : Env) (all : List Change) :
    List Change → DeployState → Option (DeployState × Option String)
  | [], s => some (s, none)
  | c :: cs, s =>
    match applyOne env all s c with
    | none => none
    | some (s', some e) => some (s', some (annotateErr "cannot deploy bundle" e))
    | some (s', none) => runChanges env all cs s'

/-! ### Plan well-formedness (modelled from the spec)

The planner (github.com/juju/bundlechanges) is not part of this
repository; the guarantees below are modelled from the spec: one AddCharm
per distinct charm reference, emitted before the AddService changes that
name the same reference; AddService before the AddUnit and AddRelation
changes whose placeholders point at it; unique identifiers of the form
`<kind>-<index>` (hence never starting with `resolved-`); non-empty
service names from a validated bundle. -/

def ChangeData.isAddService : ChangeData → Bool
  | .addService _ _ _ => true
  | _ => false

/-- Distinct charm references for two AddCharm changes (trivial for any
other pair of kinds). -/
def distinctCharms : ChangeData → ChangeData → Bool
  | .addCharm ch, .addCharm ch' => ch != ch'
  | _, _ => true

def planPairOk (a b : Change) : Prop :=
  a.id ≠ b.id ∧ distinctCharms a.data b.data = true

/-- The service placeholder of an endpoint string points at an AddService
change of the prefix. -/
def EndpointRefs (done : List Change) (e : String) : Prop :=
  ∃ c' ∈ done, c'.data.isAddService = true ∧
    (splitStr e ':').head? = some ("$" ++ c'.id)

/-- The planner's per-change guarantee, relative to the changes already
emitted before it. -/
def planStepOk (done : List Change) : ChangeData → Prop
  | .addService ch svc _ => svc ≠ "" ∧ ∃ c' ∈ done, c'.data = .addCharm ch
  | .addUnit svc _ =>
    ∃ c' ∈ done, c'.data.isAddService = true ∧ svc = "$" ++ c'.id
  | .addRelation e1 e2 => EndpointRefs done e1 ∧ EndpointRefs done e2
  | _ => True

def WellFormedPlan (changes : List Change) : Prop :=
  changes.Pairwise planPairOk ∧
  (∀ c ∈ changes, strStarts c.id "resolved-" = false) ∧
  ∀ i : Fin changes.length, planStepOk (changes.take i.val) (changes.get i).data

/-- The service placeholder inside an endpoint string (the part before
the first colon) resolves to a non-empty value. -/
def endpointResolves (results : List (String × String)) (e : String) : Prop :=
  ∃ v, resolve ((splitStr e ':').headD "") results = some v ∧ v ≠ ""

instance endpointRefsDecidable (done : List Change) (e : String) :
    Decidable (EndpointRefs done e) :=
  inferInstanceAs (Decidable (∃ c' ∈ done, c'.data.isAddService = true ∧
    (splitStr e ':').head? = some ("$" ++ c'.id)))

instance planStepOkDecidable (done : List Change) (d : ChangeData) :
    Decidable (planStepOk done d) :=
  match d with
  | .addCharm _ => isTrue trivial
  | .addMachine _ _ _ _ => isTrue trivial
  | .addService ch svc _ =>
    inferInstanceAs (Decidable (svc ≠ "" ∧ ∃ c' ∈ done, c'.data = .addCharm ch))
  | .addUnit svc _ =>
    inferInstanceAs (Decidable (∃ c' ∈ done, c'.data.isAddService = true ∧ svc = "$" ++ c'.id))
  | .addRelation e1 e2 =>
    inferInstanceAs (Decidable (EndpointRefs done e1 ∧ EndpointRefs done e2))
  | .setAnnotations => isTrue trivial

/-- The non-optional placeholder arguments of a change resolve to
non-empty values in the given results table: the service placeholder of
an AddUnit, the service placeholders of both AddRelation endpoints, and
the charm looked up by AddService under `resolved-<reference>`. -/
def placeholdersResolved (results : List (String × String)) : ChangeData → Prop
  | .addService ch _ _ => lookupD results ("resolved-" ++ ch) ≠ ""
  | .addUnit svc _ => ∃ v, resolve svc results = some v ∧ v ≠ ""
  | .addRelation e1 e2 => endpointResolves results e1 ∧ endpointResolves results e2
  | _ => True

/-- A machine change reaches an AddUnit dependent through the chain of
first relevant dependents, resolving that unit's service: the
well-formedness hypothesis of `serviceForMachineChange`. -/
inductive ReachesUnit (changes : List Change) (results : List (String × String)) :
    String → String → Prop where
  | unitStep : ∀ id c svc toSpec service,
      firstDependent id changes = some c → c.data = .addUnit svc toSpec →
      resolve svc results = some service →
      ReachesUnit changes results id service
  | machineStep : ∀ id c a b d e service,
      firstDependent id changes = some c → c.data = .addMachine a b d e →
      ReachesUnit changes results c.id service →
      ReachesUnit changes results id service

/-! ### Concrete sample collaborators for evaluation -/

/-- A benign environment used to evaluate the handlers on concrete
inputs. -/
def sampleEnv : Env where
  resolveURL := fun _ => .ok { schema := "cs", user := "", series := "trusty",
                               name := "mysql", revision := 42 }
  addCharmAPI := fun u => .ok u
  serviceDeploy := fun _ _ => none
  serviceGetCharmURL := fun _ => .error "not found"
  serviceSetCharm := fun _ _ => none
  marshalOptions := fun _ _ => .ok ""
  serviceSetYAML := fun _ _ => none
  parseConstraints := fun _ => none
  parseContainerType := fun _ => none
  addMachines := fun _ => .ok (.ok "0")
  addServiceUnits := fun s _ => .ok (s ++ "/0")
  addRelation := fun _ _ => none
  rand := fun _ => 1
  numUnits := fun _ => 2

/-- The initial handler state of a deployment against an empty model. -/
def emptyState : DeployState :=
  { results := [], unitStatus := [], ignoredMachines := [], ignoredUnits := [],
    stream := [], logs := [], calls := [] }

instance planPairOkDecidable (a b : Change) : Decidable (planPairOk a b) :=
  inferInstanceAs (Decidable (a.id ≠ b.id ∧ distinctCharms a.data b.data = true))

instance wellFormedPlanDecidable (changes : List Change) :
    Decidable (WellFormedPlan changes) :=
  inferInstanceAs (Decidable (changes.Pairwise planPairOk ∧
    (∀ c ∈ changes, strStarts c.id "resolved-" = false) ∧
    ∀ i : Fin changes.length, planStepOk (changes.take i.val) (changes.get i).data))

/-! ## Helper lemmas -/

@[simp] theorem lookupD_setKey (m : List (String × String)) (k v k' : String) :
    lookupD (setKey m k v) k' = if k' = k then v else lookupD m k' := by
  simp only [lookupD, setKey, List.lookup]
  by_cases h : k' = k
  · simp [h]
  · simp [h, beq_false_of_ne h]

/-- A charm URL's printed form always carries the schema colon, hence is
never the empty string. -/
theorem CharmURL.str_ne_empty (u : CharmURL) : u.str ≠ "" := by
  have h : (u.str).data = u.schema.data ++ (":" ++ u.path).data := by
    simp [CharmURL.str, String.data_append, String.append_assoc]
  intro hc
  have hd : (u.str).data = [] := by simp [hc]
  rw [h] at hd
  have : (":" ++ u.path).data = [] := (List.append_eq_nil.mp hd).2
  rw [String.data_append] at this
  simp [String.data] at this

theorem strStarts_append_left (p t : String) : strStarts (p ++ t) p = true := by
  simp [strStarts, String.data_append, List.isPrefixOf_iff_prefix]

theorem ne_append_of_strStarts_false {k p : String} (t : String)
    (h : strStarts k p = false) : k ≠ p ++ t := by
  intro hk
  rw [hk, strStarts_append_left] at h
  exact Bool.noConfusion h

theorem strAppend_left_cancel {p a b : String} (h : p ++ a = p ++ b) : a = b := by
  have h2 := congrArg String.data h
  rw [String.data_append, String.data_append] at h2
  have h3 := List.append_cancel_left h2
  cases a; cases b; simp_all

theorem resolve_dollar (results : List (String × String)) (k : String) :
    resolve ("$" ++ k) results = some (lookupD results k) := by
  cases k with
  | mk l => rfl

theorem contains_true_iff_mem {l : List String} {a : String} :
    l.contains a = true ↔ a ∈ l := by
  simp [List.contains_iff_exists_mem_beq]

/-! ## Claims about the placeholder resolver -/

/-- C5: A token starting with `$` makes `resolve` return the results
table entry keyed by the token with its first character removed, the
empty string when the key is absent, and it does not panic; a token that
does not start with `$` makes `resolve` panic (modelled as `none`). -/
theorem resolve_spec (t : String) (results : List (String × String)) :
    (strStarts t "$" = true →
      resolve t results = some (lookupD results (String.mk t.data.tail)) ∧
      (results.lookup (String.mk t.data.tail) = none → resolve t results = some "")) ∧
    (strStarts t "$" = false → resolve t results = none) := by
  cases t with
  | mk l =>
    cases l with
    | nil =>
      refine ⟨fun h => ?_, fun _ => rfl⟩
      exact absurd h (by simp [strStarts, List.isPrefixOf])
    | cons c rest =>
      have hss : strStarts (String.mk (c :: rest)) "$" = ('$' == c) := by
        show List.isPrefixOf ['$'] (c :: rest) = _
        simp [List.isPrefixOf]
      by_cases hc : '$' = c
      · subst hc
        constructor
        · intro _
          refine ⟨rfl, fun hnone => ?_⟩
          have hnone' : results.lookup (String.mk rest) = none := hnone
          show resolve (String.mk ('$' :: rest)) results = some ""
          simp [resolve, lookupD, hnone']
        · intro h
          rw [hss] at h
          simp at h
      · constructor
        · intro h
          rw [hss] at h
          simp at h
          exact absurd h hc
        · intro _
          show resolve (String.mk (c :: rest)) results = none
          simp only [resolve]
          rw [if_neg (fun hh => hc hh.symm)]

/-- Witness for C5 at concrete inputs. -/
theorem resolve_spec_witness :
    (strStarts "$deploy-1" "$" = true ∧
      resolve "$deploy-1" [("deploy-1", "mysql")]
        = some (lookupD [("deploy-1", "mysql")] (String.mk "$deploy-1".data.tail))) ∧
    (strStarts "deploy-1" "$" = false ∧ resolve "deploy-1" [("deploy-1", "mysql")] = none) :=
  ⟨⟨by decide, ((resolve_spec "$deploy-1" [("deploy-1", "mysql")]).1 (by decide)).1⟩,
   ⟨by decide, (resolve_spec "deploy-1" [("deploy-1", "mysql")]).2 (by decide)⟩⟩

/-! ## Claims about the upgrade path -/

/-- C1: On the upgrade path entered after a "service already exists"
error: when the existing charm URL equals the bundle's resolved charm id,
`upgradeCharm` succeeds without calling `ServiceSetCharm` (reusing the
service); `ServiceSetCharm` is called only when the new URL with the
revision stripped has the same path as the existing URL with the
revision stripped; and when the stripped paths differ, `upgradeCharm`
fails with the "bundle charm ... is incompatible with existing charm ..."
message without calling `ServiceSetCharm`. -/
theorem upgradeCharm_compatibility (getCharmURL : Except String CharmURL)
    (setCharm : String → String → Option String) (service id : String) :
    (∀ existing, getCharmURL = .ok existing →
      (existing.str = id →
        (upgradeCharm getCharmURL setCharm service id).result = .ok () ∧
        ApiCall.serviceSetCharm service id ∉ (upgradeCharm getCharmURL setCharm service id).calls) ∧
      (∀ url, existing.str ≠ id → parseURL id = some url →
        (url.withRevision (-1)).path ≠ (existing.withRevision (-1)).path →
        (upgradeCharm getCharmURL setCharm service id).result
            = .error ("bundle charm " ++ quoteStr id
                ++ " is incompatible with existing charm " ++ quoteStr existing.str) ∧
        ApiCall.serviceSetCharm service id ∉ (upgradeCharm getCharmURL setCharm service id).calls)) ∧
    (ApiCall.serviceSetCharm service id ∈ (upgradeCharm getCharmURL setCharm service id).calls →
      ∃ existing url, getCharmURL = .ok existing ∧ existing.str ≠ id ∧
        parseURL id = some url ∧
        (url.withRevision (-1)).path = (existing.withRevision (-1)).path) := by
  constructor
  · intro existing hget
    subst hget
    constructor
    · intro heq
      constructor
      · simp [upgradeCharm, heq]
      · simp [upgradeCharm, heq]
    · intro url hne hparse hpath
      constructor
      · simp only [upgradeCharm]
        rw [if_neg (by simpa using hne), hparse]
        simp only []
        rw [if_pos (by simpa using hpath)]
      · simp only [upgradeCharm]
        rw [if_neg (by simpa using hne), hparse]
        simp only []
        rw [if_pos (by simpa using hpath)]
        simp
  · intro hmem
    cases hget : getCharmURL with
    | error e => rw [hget] at hmem; simp [upgradeCharm] at hmem
    | ok existing =>
      rw [hget] at hmem
      by_cases heq : existing.str = id
      · simp [upgradeCharm, heq] at hmem
      · cases hparse : parseURL id with
        | none =>
          simp only [upgradeCharm] at hmem
          rw [if_neg (by simpa using heq), hparse] at hmem
          simp at hmem
        | some url =>
          by_cases hpath : (url.withRevision (-1)).path = (existing.withRevision (-1)).path
          · exact ⟨existing, url, rfl, heq, rfl, hpath⟩
          · simp only [upgradeCharm] at hmem
            rw [if_neg (by simpa using heq), hparse] at hmem
            simp only [] at hmem
            rw [if_pos (by simpa using hpath)] at hmem
            simp at hmem

/-- Witness for C1 at the spec's incompatible-upgrade scenario. -/
theorem upgradeCharm_compatibility_witness :
    (upgradeCharm (.ok { schema := "local", user := "", series := "quantal",
                         name := "wordpress", revision := 3 })
        (fun _ _ => none) "wordpress" "cs:trusty/incompatible-42").result
      = .error ("bundle charm \"cs:trusty/incompatible-42\" is incompatible"
          ++ " with existing charm \"local:quantal/wordpress-3\"") ∧
    ApiCall.serviceSetCharm "wordpress" "cs:trusty/incompatible-42"
      ∉ (upgradeCharm (.ok { schema := "local", user := "", series := "quantal",
                             name := "wordpress", revision := 3 })
          (fun _ _ => none) "wordpress" "cs:trusty/incompatible-42").calls := by
  have h := (upgradeCharm_compatibility
      (.ok { schema := "local", user := "", series := "quantal",
             name := "wordpress", revision := 3 })
      (fun _ _ => none) "wordpress" "cs:trusty/incompatible-42").1
      _ rfl
  have h2 := h.2 { schema := "cs", user := "", series := "trusty",
                   name := "incompatible", revision := 42 }
      (by decide) (by decide) (by decide)
  exact ⟨h2.1, h2.2⟩

/-! ## Claims about relation handling -/

/-- C4: For every AddRelation change with resolvable endpoints: a
successful control-plane `AddRelation` call makes the handler log
"related ep1 and ep2" and succeed; a failure whose message ends with
"relation already exists" makes it log "ep1 and ep2 are already related"
and succeed; any other failure makes the handler return the annotated
error, which aborts the deployment. -/
theorem addRelation_spec (env : Env) (s : DeployState) (e1 e2 ep1 ep2 : String)
    (h1 : resolveRelation e1 s.results = some ep1)
    (h2 : resolveRelation e2 s.results = some ep2) :
    (env.addRelation ep1 ep2 = none →
      handleAddRelation env s e1 e2 =
        some ({ s with
                calls := s.calls ++ [.addRelationCall ep1 ep2],
                logs := s.logs ++ ["related " ++ ep1 ++ " and " ++ ep2] }, none)) ∧
    (∀ err, env.addRelation ep1 ep2 = some err →
      strEnds err "relation already exists" = true →
      handleAddRelation env s e1 e2 =
        some ({ s with
                calls := s.calls ++ [.addRelationCall ep1 ep2],
                logs := s.logs ++ [ep1 ++ " and " ++ ep2 ++ " are already related"] }, none)) ∧
    (∀ err, env.addRelation ep1 ep2 = some err →
      strEnds err "relation already exists" = false →
      handleAddRelation env s e1 e2 =
        some ({ s with calls := s.calls ++ [.addRelationCall ep1 ep2] },
              some (annotateErr ("cannot add relation between " ++ quoteStr ep1
                ++ " and " ++ quoteStr ep2) err))) := by
  refine ⟨fun hok => ?_, fun err herr hsuffix => ?_, fun err herr hsuffix => ?_⟩
  · simp [handleAddRelation, h1, h2, hok]
  · simp [handleAddRelation, h1, h2, herr, hsuffix]
  · simp [handleAddRelation, h1, h2, herr, hsuffix]

/-- Witness for C4: both the success case and the already-related case at
concrete inputs. -/
theorem addRelation_spec_witness :
    handleAddRelation sampleEnv
        { emptyState with results := [("deploy-1", "wordpress"), ("deploy-2", "mysql")] }
        "$deploy-1:db" "$deploy-2:server" =
      some ({ emptyState with
              results := [("deploy-1", "wordpress"), ("deploy-2", "mysql")],
              calls := [.addRelationCall "wordpress:db" "mysql:server"],
              logs := ["related wordpress:db and mysql:server"] }, none) ∧
    handleAddRelation
        { sampleEnv with addRelation := fun _ _ => some "relation already exists" }
        { emptyState with results := [("deploy-1", "wordpress"), ("deploy-2", "mysql")] }
        "$deploy-1:db" "$deploy-2:server" =
      some ({ emptyState with
              results := [("deploy-1", "wordpress"), ("deploy-2", "mysql")],
              calls := [.addRelationCall "wordpress:db" "mysql:server"],
              logs := ["wordpress:db and mysql:server are already related"] }, none) := by
  constructor
  · have h := (addRelation_spec sampleEnv
        { emptyState with results := [("deploy-1", "wordpress"), ("deploy-2", "mysql")] }
        "$deploy-1:db" "$deploy-2:server" "wordpress:db" "mysql:server"
        (by decide) (by decide)).1 rfl
    exact h
  · have h := (addRelation_spec
        { sampleEnv with addRelation := fun _ _ => some "relation already exists" }
        { emptyState with results := [("deploy-1", "wordpress"), ("deploy-2", "mysql")] }
        "$deploy-1:db" "$deploy-2:server" "wordpress:db" "mysql:server"
        (by decide) (by decide)).2.1 "relation already exists" rfl (by decide)
    exact h

/-! ## Claims about unit handling -/

/-- C3: For an AddUnit change whose resolved service already has at
least as many units in the unit-status view as the bundle declares (for
a planned AddUnit the declared count is at least one): the handler makes
no `AddServiceUnits` call, records under the change id a machine picked
by the random oracle from the machines currently hosting the service's
units, returns success, and emits the "avoid adding new units to service
..." message exactly when the `ignoredUnits` flag was not yet set,
setting the flag so the message appears at most once per service. -/
theorem addUnit_skip_existing (env : Env) (s : DeployState)
    (id svcPlaceholder toSpec service : String) (machines : List String)
    (hres : resolve svcPlaceholder s.results = some service)
    (hms : machinesForService s.unitStatus service = some machines)
    (hwant : 1 ≤ env.numUnits service)
    (hge : env.numUnits service ≤ machines.length) :
    ∃ s', handleAddUnit env s id svcPlaceholder toSpec = some (s', none) ∧
      s'.calls = s.calls ∧
      s'.unitStatus = s.unitStatus ∧
      lookupD s'.results id
        = machines.getD (env.rand machines.length % machines.length) "" ∧
      lookupD s'.results id ∈ machines ∧
      service ∈ s'.ignoredUnits ∧
      (service ∈ s.ignoredUnits → s'.logs = s.logs) ∧
      (service ∉ s.ignoredUnits →
        s'.logs = s.logs ++ ["avoid adding new units to service " ++ service
          ++ ": " ++ existingUnitsMessage machines.length]) := by
  have hpos : 0 < machines.length := Nat.lt_of_lt_of_le hwant hge
  have hne : (machines.length == 0) = false := by
    simp [Nat.pos_iff_ne_zero.mp hpos]
  have hmem : machines.getD (env.rand machines.length % machines.length) "" ∈ machines := by
    have hlt : env.rand machines.length % machines.length < machines.length :=
      Nat.mod_lt _ hpos
    rw [List.getD_eq_getElem machines "" hlt]
    exact List.getElem_mem hlt
  by_cases hflag : s.ignoredUnits.contains service
  · have heq : handleAddUnit env s id svcPlaceholder toSpec = some
        ({ s with results := setKey s.results id (machines.getD (env.rand machines.length % machines.length) "") }, none) := by
      have hmm : service ∈ s.ignoredUnits := contains_true_iff_mem.mp hflag
      simp only [handleAddUnit, hres, hms]
      rw [if_pos hge, hne]
      simp [hmm]
    refine ⟨_, heq, rfl, rfl, by simp, by simpa using hmem, ?_, fun _ => rfl, fun hnot => ?_⟩
    · exact contains_true_iff_mem.mp hflag
    · exact absurd (contains_true_iff_mem.mp hflag) hnot
  · have hflagf : s.ignoredUnits.contains service = false := by
      cases h : s.ignoredUnits.contains service
      · rfl
      · exact absurd h hflag
    have heq : handleAddUnit env s id svcPlaceholder toSpec = some
        ({ s with
            ignoredUnits := service :: s.ignoredUnits,
            logs := s.logs ++ ["avoid adding new units to service " ++ service ++ ": " ++ existingUnitsMessage machines.length],
            results := setKey s.results id (machines.getD (env.rand machines.length % machines.length) "") }, none) := by
      have hmm : service ∉ s.ignoredUnits := fun hm => hflag (contains_true_iff_mem.mpr hm)
      simp only [handleAddUnit, hres, hms]
      rw [if_pos hge, hne]
      simp [hmm]
    refine ⟨_, heq, rfl, rfl, by simp, by simpa using hmem, ?_, fun hmem2 => ?_, fun _ => rfl⟩
    · exact List.mem_cons_self _ _
    · exact absurd hmem2 (fun hm => hflag (contains_true_iff_mem.mpr hm))

/-- Witness for C3: a service with two declared units and two existing
units; the random oracle picks index 1, whose hosting machine is the
empty string (the unit went to a new machine earlier). -/
theorem addUnit_skip_existing_witness :
    ∃ s', handleAddUnit sampleEnv
        { emptyState with
          results := [("deploy-1", "mysql")],
          unitStatus := [("mysql/0", "0"), ("mysql/1", "")] }
        "addUnit-2" "$deploy-1" "" = some (s', none) ∧
      s'.calls = [] ∧
      lookupD s'.results "addUnit-2" = "" ∧
      "mysql" ∈ s'.ignoredUnits ∧
      s'.logs = ["avoid adding new units to service mysql: 2 units already present"] := by
  obtain ⟨s', happ, hcalls, hus, hpick, hmem, hflag, hold, hnew⟩ :=
    addUnit_skip_existing sampleEnv
      { emptyState with
        results := [("deploy-1", "mysql")],
        unitStatus := [("mysql/0", "0"), ("mysql/1", "")] }
      "addUnit-2" "$deploy-1" "" "mysql" ["0", ""]
      (by decide) (by decide) (by decide) (by decide)
  refine ⟨s', happ, ?_, ?_, hflag, ?_⟩
  · rw [hcalls]; decide
  · rw [hpick]; decide
  · rw [hnew (by decide)]; decide

/-! ## Claims about charm handling -/

/-- C8: For every AddCharm change: a resolved charm URL whose series
is "bundle" makes the handler fail with "expected charm URL, got bundle
URL ..." leaving the state untouched (in particular no control-plane call
is recorded); on success the fully resolved URL string is stored in the
results table under `resolved-` concatenated with the original charm
reference, every other key — the change id included — being left
unchanged. -/
theorem addCharm_spec (env : Env) (s : DeployState) (charm : String) :
    (∀ url, env.resolveURL charm = .ok url → url.series = "bundle" →
      handleAddCharm env s charm =
        some (s, some ("expected charm URL, got bundle URL " ++ quoteStr charm))) ∧
    (∀ url url2, env.resolveURL charm = .ok url → url.series ≠ "bundle" →
      env.addCharmAPI url = .ok url2 →
      ∃ s', handleAddCharm env s charm = some (s', none) ∧
        lookupD s'.results ("resolved-" ++ charm) = url2.str ∧
        (∀ k, k ≠ "resolved-" ++ charm → lookupD s'.results k = lookupD s.results k)) := by
  constructor
  · intro url hres hser
    simp [handleAddCharm, hres, hser]
  · intro url url2 hres hser happ
    have heq : handleAddCharm env s charm = some
        ({ s with
           calls := s.calls ++ [.addCharmAPICall url],
           logs := s.logs ++ ["added charm " ++ url2.str],
           results := setKey s.results ("resolved-" ++ charm) url2.str }, none) := by
      simp [handleAddCharm, hres, hser, happ]
    refine ⟨_, heq, by simp, fun k hk => by simp [hk]⟩

/-- Witness for C8: the bundle-series rejection and the success path at
concrete inputs. -/
theorem addCharm_spec_witness :
    handleAddCharm
        { sampleEnv with resolveURL := fun _ => .ok ⟨"cs", "", "bundle", "wordpress-simple", 1⟩ }
        emptyState "bundle/wordpress-simple" =
      some (emptyState,
            some "expected charm URL, got bundle URL \"bundle/wordpress-simple\"") ∧
    (∃ s', handleAddCharm sampleEnv emptyState "mysql" = some (s', none) ∧
      lookupD s'.results "resolved-mysql" = "cs:trusty/mysql-42" ∧
      lookupD s'.results "addCharm-0" = "") := by
  constructor
  · exact (addCharm_spec
        { sampleEnv with resolveURL := fun _ => .ok ⟨"cs", "", "bundle", "wordpress-simple", 1⟩ }
        emptyState "bundle/wordpress-simple").1
      ⟨"cs", "", "bundle", "wordpress-simple", 1⟩ rfl rfl
  · obtain ⟨s', happ, hstore, hother⟩ := (addCharm_spec sampleEnv emptyState "mysql").2
      ⟨"cs", "", "trusty", "mysql", 42⟩ ⟨"cs", "", "trusty", "mysql", 42⟩
      rfl (by decide) rfl
    refine ⟨s', happ, ?_, ?_⟩
    · rw [show ("resolved-mysql" : String) = "resolved-" ++ "mysql" from rfl, hstore]; decide
    · rw [hother "addCharm-0" (by decide)]; decide

/-! ## Claims about the unit-status view -/

/-- C10: `machinesForService` yields exactly one entry per unit of the
given service in the unit-status view — duplicates kept, the empty string
kept for a unit whose machine is unknown — so the counts compared against
NumUnits count units, not distinct machines; and the new-machine path of
`addUnit` records the empty string as the unit's machine, which can later
be served as such an entry (and as the randomly picked pseudo-result). -/
theorem machinesForService_counts_units :
    (∀ us service ms, machinesForService us service = some ms →
      ms = (us.filter (fun p => unitService p.1 == some service)).map Prod.snd ∧
      ms.length = (us.filter (fun p => unitService p.1 == some service)).length ∧
      ∀ um ∈ us, unitService um.1 = some service → um.2 ∈ ms) ∧
    (∀ env s id svcPlaceholder service machines unit,
      resolve svcPlaceholder s.results = some service →
      machinesForService s.unitStatus service = some machines →
      machines.length < env.numUnits service →
      env.addServiceUnits service "" = .ok unit →
      ∃ s', handleAddUnit env s id svcPlaceholder "" = some (s', none) ∧
        s'.unitStatus = setKey s.unitStatus unit "" ∧
        lookupD s'.unitStatus unit = "") := by
  constructor
  · intro us service
    induction us with
    | nil => intro ms hms; simp [machinesForService] at hms; simp [hms.symm]
    | cons p rest ih =>
      intro ms hms
      obtain ⟨unit, machine⟩ := p
      simp only [machinesForService] at hms
      cases hsvc : unitService unit with
      | none => simp [hsvc] at hms
      | some svc =>
        cases hrec : machinesForService rest service with
        | none => simp [hsvc, hrec] at hms
        | some ms2 =>
          simp only [hsvc, hrec] at hms
          obtain ⟨hm1, hm2, hm3⟩ := ih ms2 hrec
          by_cases hcase : svc = service
          · rw [hcase] at hms
            simp only [beq_self_eq_true, if_true] at hms
            have hms2 : ms = machine :: ms2 := (Option.some.inj hms).symm
            subst hms2
            refine ⟨?_, ?_, ?_⟩
            · simp [List.filter_cons, hsvc, hcase, hm1]
            · simp [List.filter_cons, hsvc, hcase, hm2]
            · intro um hum hsvc2
              cases hum with
              | head => exact List.mem_cons_self _ _
              | tail _ hum2 => exact List.mem_cons_of_mem _ (hm3 um hum2 hsvc2)
          · have hbeq : (svc == service) = false := by
              simp [hcase]
            rw [hbeq] at hms
            simp only [Bool.false_eq_true, if_false] at hms
            have hms2 : ms = ms2 := (Option.some.inj hms).symm
            subst hms2
            have hfilter : (((unit, machine) :: rest).filter
                (fun p => unitService p.1 == some service))
                = rest.filter (fun p => unitService p.1 == some service) := by
              simp [List.filter_cons, hsvc, hcase]
            refine ⟨by rw [hfilter]; exact hm1, by rw [hfilter]; exact hm2, ?_⟩
            intro um hum hsvc2
            cases hum with
            | head =>
              rw [hsvc] at hsvc2
              exact absurd (Option.some.inj hsvc2) hcase
            | tail _ hum2 => exact hm3 um hum2 hsvc2
  · intro env s id svcPlaceholder service machines unit hres hms hlt hadd
    have hnotge : ¬ machines.length ≥ env.numUnits service := Nat.not_le_of_lt hlt
    have heq : handleAddUnit env s id svcPlaceholder "" = some
        ({ s with
           calls := s.calls ++ [.addServiceUnits service ""],
           logs := s.logs ++ ["added " ++ unit ++ " unit to new machine"],
           results := setKey s.results id unit,
           unitStatus := setKey s.unitStatus unit "" }, none) := by
      simp only [handleAddUnit, hres, hms]
      rw [if_neg hnotge]
      simp [hadd]
    refine ⟨_, heq, rfl, by simp⟩

/-- Witness for C10: two `wordpress` units, one on machine "1" and one
whose machine is still unknown, produce the two entries ["1", ""]; and
the new-machine path of `addUnit` stores an empty machine id for the
fresh unit. -/
theorem machinesForService_counts_units_witness :
    (machinesForService [("wordpress/0", "1"), ("mysql/0", "1"), ("wordpress/1", "")]
        "wordpress" = some ["1", ""] ∧
      ["1", ""] = ([("wordpress/0", "1"), ("mysql/0", "1"), ("wordpress/1", "")].filter
        (fun p => unitService p.1 == some "wordpress")).map Prod.snd) ∧
    (∃ s', handleAddUnit
        { sampleEnv with
          numUnits := fun _ => 3,
          addServiceUnits := fun sv _ => .ok (sv ++ "/2") }
        { emptyState with
          results := [("deploy-1", "wordpress")],
          unitStatus := [("wordpress/0", "1"), ("wordpress/1", "")] }
        "addUnit-9" "$deploy-1" "" = some (s', none) ∧
      lookupD s'.unitStatus "wordpress/0" = "1" ∧
      lookupD s'.unitStatus "wordpress/2" = "") := by
  constructor
  · refine ⟨by decide, ?_⟩
    exact (machinesForService_counts_units.1
      [("wordpress/0", "1"), ("mysql/0", "1"), ("wordpress/1", "")] "wordpress"
      ["1", ""] (by decide)).1
  · obtain ⟨s', happ, hus, hlook⟩ :=
      machinesForService_counts_units.2
        { sampleEnv with
          numUnits := fun _ => 3,
          addServiceUnits := fun sv _ => .ok (sv ++ "/2") }
        { emptyState with
          results := [("deploy-1", "wordpress")],
          unitStatus := [("wordpress/0", "1"), ("wordpress/1", "")] }
        "addUnit-9" "$deploy-1" "wordpress" ["1", ""] "wordpress/2"
        (by decide) (by decide) (by decide) (by decide)
    refine ⟨s', happ, ?_, ?_⟩
    · rw [hus]; decide
    · rw [hus]; decide

/-- The waiting loop of `resolveMachine` only returns a machine id that
is non-empty and recorded for the unit in the final unit-status view. -/
theorem resolveMachineLoop_ok (unit : String) :
    ∀ (stream : List WatchNext) (us : List (String × String)) m us' st',
      resolveMachineLoop unit us stream = some (.ok (m, us', st')) →
      m ≠ "" ∧ lookupD us' unit = m := by
  intro stream
  induction stream with
  | nil =>
    intro us m us' st' h
    simp only [resolveMachineLoop] at h
    by_cases hk : lookupD us unit ≠ ""
    · rw [if_pos hk] at h
      obtain ⟨h1, h2, h3⟩ : lookupD us unit = m ∧ us = us' ∧ ([] : List WatchNext) = st' := by
        simpa using h
      subst h1; subst h2
      exact ⟨hk, rfl⟩
    · rw [if_neg hk] at h
      exact absurd h (by simp)
  | cons n rest ih =>
    intro us m us' st' h
    simp only [resolveMachineLoop] at h
    by_cases hk : lookupD us unit ≠ ""
    · rw [if_pos hk] at h
      obtain ⟨h1, h2, h3⟩ : lookupD us unit = m ∧ us = us' ∧ n :: rest = st' := by
        simpa using h
      subst h1; subst h2
      exact ⟨hk, rfl⟩
    · rw [if_neg hk] at h
      cases hupd : updateUnitStatus us n with
      | error e => rw [hupd] at h; exact absurd h (by simp)
      | ok us2 => rw [hupd] at h; exact ih us2 m us' st' h

/-- C6: `resolveMachine` returns a resolved value that is not a valid
unit name directly, without consulting the watcher; for a valid unit name
it advances the watcher until the unit-status view maps the unit to a
non-empty machine id, so a successful return for a unit placeholder is
never the empty string and agrees with the final unit-status view. -/
theorem resolveMachine_spec (placeholder : String) (results : List (String × String))
    (us : List (String × String)) (stream : List WatchNext) :
    (∀ v, resolve placeholder results = some v → isValidUnit v = false →
      resolveMachine placeholder results us stream = some (.ok (v, us, stream))) ∧
    (∀ v m us' st', resolve placeholder results = some v → isValidUnit v = true →
      resolveMachine placeholder results us stream = some (.ok (m, us', st')) →
      m ≠ "" ∧ lookupD us' v = m) := by
  constructor
  · intro v hres hvalid
    simp [resolveMachine, hres, hvalid]
  · intro v m us' st' hres hvalid h
    simp only [resolveMachine, hres, hvalid, if_true] at h
    exact resolveMachineLoop_ok v stream us m us' st' h

/-- Witness for C6: a machine placeholder is returned directly, and a
unit placeholder blocks until the watcher delivers the machine id "42",
which is non-empty. -/
theorem resolveMachine_spec_witness :
    resolveMachine "$addMachines-0" [("addMachines-0", "7")] [] [] =
      some (.ok ("7", [], [])) ∧
    (∃ m us' st', resolveMachine "$addUnit-1" [("addUnit-1", "mysql/0")]
        [("mysql/0", "")] [.ok [("mysql/0", "42")]] = some (.ok (m, us', st')) ∧
      m ≠ "" ∧ lookupD us' "mysql/0" = m ∧ m = "42") := by
  constructor
  · exact (resolveMachine_spec "$addMachines-0" [("addMachines-0", "7")] [] []).1
      "7" (by decide) (by decide)
  · have h := (resolveMachine_spec "$addUnit-1" [("addUnit-1", "mysql/0")]
        [("mysql/0", "")] [.ok [("mysql/0", "42")]]).2
      "mysql/0" "42" [("mysql/0", "42"), ("mysql/0", "")] []
      (by decide) (by decide) rfl
    exact ⟨"42", [("mysql/0", "42"), ("mysql/0", "")], [], rfl, h.1, h.2, rfl⟩

/-! ## Claims about the charm store client -/

/-- C9: For a `cs:` charm URL: when the first `AddCharm` call fails
with a bakery (discharge- or interaction-required) error, the delegatable
macaroon attenuated with the first-party caveat "is-entity <url>" is
obtained and `AddCharmWithAuthorization` is called exactly once with it;
a failing retry, or a first failure that is not a bakery error, is
returned as is; and there is never a second retry. -/
theorem addCharmViaAPI_retry_once (env : ViaAPIEnv) (curl : CharmURL) :
    (addCharmViaAPI env curl).authCalls.length ≤ 1 ∧
    (curl.schema = "cs" →
      (∀ e m, env.addCharmCall curl = some (.bakery e) → env.getMacaroon = .ok m →
        (addCharmViaAPI env curl).authCalls
            = [{ m with caveats := m.caveats ++ ["is-entity " ++ curl.str] }] ∧
        (∀ e3, env.addCharmWithAuthorization curl
              { m with caveats := m.caveats ++ ["is-entity " ++ curl.str] } = some e3 →
          (addCharmViaAPI env curl).result = .error e3) ∧
        (env.addCharmWithAuthorization curl
              { m with caveats := m.caveats ++ ["is-entity " ++ curl.str] } = none →
          (addCharmViaAPI env curl).result = .ok curl)) ∧
      (∀ e, env.addCharmCall curl = some (.other e) →
        (addCharmViaAPI env curl).result = .error e ∧
        (addCharmViaAPI env curl).authCalls = [])) := by
  constructor
  · unfold addCharmViaAPI
    by_cases h1 : (curl.schema == "local") = true
    · rw [if_pos h1]
      cases env.repoGet curl with
      | error e => simp
      | ok u =>
        cases env.addLocalCharm curl with
        | error e => simp
        | ok u2 => simp
    · rw [if_neg h1]
      by_cases h2 : (curl.schema == "cs") = true
      · rw [if_pos h2]
        cases env.addCharmCall curl with
        | none => simp
        | some err =>
          cases err with
          | other e => simp
          | bakery e =>
            cases csClientAuthorize env.getMacaroon curl with
            | error e2 => simp
            | ok m =>
              cases hr : env.addCharmWithAuthorization curl m with
              | some e3 => simp [hr]
              | none => simp [hr]
      · rw [if_neg h2]
        simp
  · intro hcs
    have hlocal : (curl.schema == "local") = false := by simp [hcs]
    have hcsb : (curl.schema == "cs") = true := by simp [hcs]
    constructor
    · intro e m hcall hmac
      refine ⟨?_, ?_, ?_⟩
      · simp only [addCharmViaAPI, hlocal, hcsb, hcall, csClientAuthorize, hmac]
        cases hr : env.addCharmWithAuthorization curl
            { m with caveats := m.caveats ++ ["is-entity " ++ curl.str] } with
        | some e3 => simp [hr]
        | none => simp [hr]
      · intro e3 hretry
        simp [addCharmViaAPI, hlocal, hcsb, hcall, csClientAuthorize, hmac, hretry]
      · intro hretry
        simp [addCharmViaAPI, hlocal, hcsb, hcall, csClientAuthorize, hmac, hretry]
    · intro e hcall
      constructor
      · simp [addCharmViaAPI, hlocal, hcsb, hcall]
      · simp [addCharmViaAPI, hlocal, hcsb, hcall]

/-- Witness for C9: a bakery failure followed by a successful authorized
retry with the attenuated macaroon. -/
theorem addCharmViaAPI_retry_once_witness :
    (addCharmViaAPI
        { repoGet := fun _ => .ok (),
          addLocalCharm := fun u => .ok u,
          addCharmCall := fun _ => some (.bakery "discharge required"),
          getMacaroon := .ok { caveats := ["root"] },
          addCharmWithAuthorization := fun _ _ => none }
        ⟨"cs", "", "trusty", "mysql", 42⟩).authCalls
      = [{ caveats := ["root", "is-entity cs:trusty/mysql-42"] }] ∧
    (addCharmViaAPI
        { repoGet := fun _ => .ok (),
          addLocalCharm := fun u => .ok u,
          addCharmCall := fun _ => some (.bakery "discharge required"),
          getMacaroon := .ok { caveats := ["root"] },
          addCharmWithAuthorization := fun _ _ => none }
        ⟨"cs", "", "trusty", "mysql", 42⟩).result = .ok ⟨"cs", "", "trusty", "mysql", 42⟩ := by
  have h := (addCharmViaAPI_retry_once
      { repoGet := fun _ => .ok (),
        addLocalCharm := fun u => .ok u,
        addCharmCall := fun _ => some (.bakery "discharge required"),
        getMacaroon := .ok { caveats := ["root"] },
        addCharmWithAuthorization := fun _ _ => none }
      ⟨"cs", "", "trusty", "mysql", 42⟩).2 rfl
  obtain ⟨hauth, _, hok⟩ := h.1 "discharge required" { caveats := ["root"] } rfl rfl
  constructor
  · rw [hauth]; decide
  · exact hok rfl

/-! ## Claims about the change-graph walk -/

/-- C7: In a plan where every AddMachine change reaches an AddUnit
dependent through the chain of first relevant dependents (dependent
AddMachine changes recursed into, SetAnnotations changes skipped),
`serviceForMachineChange` terminates — some fuel suffices — and returns
the service resolved from that AddUnit's service placeholder; and a first
relevant dependent of any other kind makes it panic. -/
theorem serviceForMachineChange_spec (changes : List Change)
    (results : List (String × String)) :
    (∀ id service, ReachesUnit changes results id service →
      ∃ n, serviceForMachineChange changes results n id = some (.found service)) ∧
    (∀ id c fuel, firstDependent id changes = some c →
      c.data.isAddMachine = false → c.data.isAddUnit = false →
      c.data.isSetAnnotations = false →
      serviceForMachineChange changes results (fuel + 1) id = some .panicRes) := by
  constructor
  · intro id service hreach
    induction hreach with
    | unitStep id c svc toSpec service hfd hdata hres =>
      exact ⟨1, by simp [serviceForMachineChange, hfd, hdata, hres]⟩
    | machineStep id c a b d e service hfd hdata hrec ih =>
      obtain ⟨n, hn⟩ := ih
      exact ⟨n + 1, by simp [serviceForMachineChange, hfd, hdata, hn]⟩
  · intro id c fuel hfd hm hu hs
    simp only [serviceForMachineChange, hfd]
    cases hd : c.data <;>
      simp_all [ChangeData.isAddMachine, ChangeData.isAddUnit, ChangeData.isSetAnnotations]

/-- Witness for C7: a container machine chain ending at an AddUnit, and
an AddService dependent causing a panic. -/
theorem serviceForMachineChange_spec_witness :
    (∃ n, serviceForMachineChange
        [⟨"addMachines-0", [], .addMachine "trusty" "" "" ""⟩,
         ⟨"addUnit-2", ["deploy-1", "addMachines-0"], .addUnit "$deploy-1" "$addMachines-0"⟩]
        [("deploy-1", "mysql")] n "addMachines-0" = some (.found "mysql")) ∧
    serviceForMachineChange
        [⟨"deploy-1", ["addCharm-0"], .addService "cs:mysql" "mysql" []⟩]
        [] 1 "addCharm-0" = some .panicRes := by
  constructor
  · exact (serviceForMachineChange_spec _ _).1 "addMachines-0" "mysql"
      (ReachesUnit.unitStep "addMachines-0"
        ⟨"addUnit-2", ["deploy-1", "addMachines-0"], .addUnit "$deploy-1" "$addMachines-0"⟩
        "$deploy-1" "$addMachines-0" "mysql" (by decide) rfl (by decide))
  · exact (serviceForMachineChange_spec _ _).2 "addCharm-0"
      ⟨"deploy-1", ["addCharm-0"], .addService "cs:mysql" "mysql" []⟩ 0
      (by decide) rfl rfl rfl

/-! ## The placeholder-soundness invariant (C2)

The following lemmas characterise the only write each handler performs on
the results table on its success path. -/

theorem handleAddCharm_results (env : Env) (s : DeployState) (charm : String)
    (s' : DeployState) (h : handleAddCharm env s charm = some (s', none)) :
    ∃ v, v ≠ "" ∧ s'.results = setKey s.results ("resolved-" ++ charm) v := by
  simp only [handleAddCharm] at h
  cases hres : env.resolveURL charm with
  | error e => simp only [hres] at h; simp at h
  | ok url =>
    simp only [hres] at h
    by_cases hser : (url.series == "bundle") = true
    · rw [if_pos hser] at h; simp at h
    · rw [if_neg hser] at h
      cases happ : env.addCharmAPI url with
      | error e => simp only [happ] at h; simp at h
      | ok url2 =>
        simp only [happ, Option.some.injEq, Prod.mk.injEq, and_true] at h
        subst h
        exact ⟨url2.str, CharmURL.str_ne_empty url2, rfl⟩

theorem handleAddRelation_results (env : Env) (s : DeployState) (e1 e2 : String)
    (s' : DeployState) (h : handleAddRelation env s e1 e2 = some (s', none)) :
    s'.results = s.results := by
  simp only [handleAddRelation] at h
  cases h1 : resolveRelation e1 s.results with
  | none => simp only [h1] at h; simp at h
  | some ep1 =>
    cases h2 : resolveRelation e2 s.results with
    | none => simp only [h1, h2] at h; simp at h
    | some ep2 =>
      simp only [h1, h2] at h
      cases hrel : env.addRelation ep1 ep2 with
      | none =>
        simp only [hrel, Option.some.injEq, Prod.mk.injEq, and_true] at h
        subst h
        rfl
      | some err =>
        simp only [hrel] at h
        by_cases hsuf : strEnds err "relation already exists" = true
        · rw [if_pos hsuf] at h
          simp only [Option.some.injEq, Prod.mk.injEq, and_true] at h
          subst h
          rfl
        · rw [if_neg hsuf] at h
          simp at h

theorem handleAddService_results (env : Env) (s : DeployState)
    (id charm svc : String) (opts : List (String × String)) (s' : DeployState)
    (h : handleAddService env s id charm svc opts = some (s', none)) :
    s'.results = setKey s.results id svc := by
  simp only [handleAddService] at h
  cases hdep : env.serviceDeploy (lookupD s.results ("resolved-" ++ charm)) svc with
  | none =>
    simp only [hdep] at h
    by_cases hopt : opts.isEmpty
    · rw [if_pos hopt] at h
      simp only [Option.some.injEq, Prod.mk.injEq, and_true] at h
      subst h
      rfl
    · rw [if_neg hopt] at h
      cases hm : env.marshalOptions svc opts with
      | error e => simp only [hm] at h; simp at h
      | ok cfg =>
        simp only [hm] at h
        cases hy : env.serviceSetYAML svc cfg with
        | some e => simp only [hy] at h; simp at h
        | none =>
          simp only [hy, Option.some.injEq, Prod.mk.injEq, and_true] at h
          subst h
          rfl
  | some e =>
    simp only [hdep] at h
    by_cases hsuf : strEnds e "service already exists" = true
    · rw [if_pos hsuf] at h
      cases hu : (upgradeCharm (env.serviceGetCharmURL svc) env.serviceSetCharm svc
          (lookupD s.results ("resolved-" ++ charm))).result with
      | error e2 => simp only [hu] at h; simp at h
      | ok u =>
        simp only [hu] at h
        by_cases hopt : opts.isEmpty
        · rw [if_pos hopt] at h
          simp only [Option.some.injEq, Prod.mk.injEq, and_true] at h
          subst h
          rfl
        · rw [if_neg hopt] at h
          cases hm : env.marshalOptions svc opts with
          | error e3 => simp only [hm] at h; simp at h
          | ok cfg =>
            simp only [hm] at h
            cases hy : env.serviceSetYAML svc cfg with
            | some e3 => simp only [hy] at h; simp at h
            | none =>
              simp only [hy, Option.some.injEq, Prod.mk.injEq, and_true] at h
              subst h
              rfl
    · rw [if_neg hsuf] at h
      simp at h

theorem handleAddUnit_results (env : Env) (s : DeployState)
    (id svcp toSpec : String) (s' : DeployState)
    (h : handleAddUnit env s id svcp toSpec = some (s', none)) :
    ∃ v, s'.results = setKey s.results id v := by
  simp only [handleAddUnit] at h
  cases hres : resolve svcp s.results with
  | none => simp only [hres] at h; simp at h
  | some service =>
    simp only [hres] at h
    cases hms : machinesForService s.unitStatus service with
    | none => simp only [hms] at h; simp at h
    | some machines =>
      simp only [hms] at h
      by_cases hge : machines.length ≥ env.numUnits service
      · rw [if_pos hge] at h
        by_cases h0 : (machines.length == 0) = true
        · rw [if_pos h0] at h; simp at h
        · rw [if_neg h0] at h
          by_cases hc : s.ignoredUnits.contains service = true
          · rw [if_pos hc] at h
            simp only [Option.some.injEq, Prod.mk.injEq, and_true] at h
            subst h
            exact ⟨_, rfl⟩
          · rw [if_neg hc] at h
            simp only [Option.some.injEq, Prod.mk.injEq, and_true] at h
            subst h
            exact ⟨_, rfl⟩
      · rw [if_neg hge] at h
        by_cases ht : (toSpec == "") = true
        · rw [if_pos ht] at h
          cases hadd : env.addServiceUnits service "" with
          | error e => simp only [hadd] at h; simp at h
          | ok unit =>
            simp only [hadd, beq_self_eq_true, if_true,
              Option.some.injEq, Prod.mk.injEq, and_true] at h
            subst h
            exact ⟨unit, rfl⟩
        · rw [if_neg ht] at h
          cases hrm : resolveMachine toSpec s.results s.unitStatus s.stream with
          | none => simp only [hrm] at h; simp at h
          | some r =>
            cases r with
            | error e => simp only [hrm] at h; simp at h
            | ok tpl =>
              obtain ⟨spec, us2, st2⟩ := tpl
              simp only [hrm] at h
              cases hadd : env.addServiceUnits service spec with
              | error e => simp only [hadd] at h; simp at h
              | ok unit =>
                simp only [hadd] at h
                by_cases hspec : (spec == "") = true
                · rw [if_pos hspec] at h
                  simp only [Option.some.injEq, Prod.mk.injEq, and_true] at h
                  subst h
                  exact ⟨unit, rfl⟩
                · rw [if_neg hspec] at h
                  simp only [Option.some.injEq, Prod.mk.injEq, and_true] at h
                  subst h
                  exact ⟨spec, rfl⟩

theorem handleAddMachine_results (env : Env) (all : List Change) (s : DeployState)
    (id series cons ct pid : String) (s' : DeployState)
    (h : handleAddMachine env all s id series cons ct pid = some (s', none)) :
    ∃ v, s'.results = setKey s.results id v := by
  simp only [handleAddMachine] at h
  cases hsvc : serviceForMachineChange all s.results (all.length + 1) id with
  | none => simp only [hsvc] at h; simp at h
  | some r =>
    cases r with
    | panicRes => simp only [hsvc] at h; simp at h
    | found service =>
      simp only [hsvc] at h
      cases hms : machinesForService s.unitStatus service with
      | none => simp only [hms] at h; simp at h
      | some machines =>
        simp only [hms] at h
        by_cases hge : machines.length ≥ env.numUnits service
        · rw [if_pos hge] at h
          by_cases h0 : (machines.length == 0) = true
          · rw [if_pos h0] at h; simp at h
          · rw [if_neg h0] at h
            by_cases hc : s.ignoredMachines.contains service = true
            · rw [if_pos hc] at h
              simp only [Option.some.injEq, Prod.mk.injEq, and_true] at h
              subst h
              exact ⟨_, rfl⟩
            · rw [if_neg hc] at h
              simp only [Option.some.injEq, Prod.mk.injEq, and_true] at h
              subst h
              exact ⟨_, rfl⟩
        · rw [if_neg hge] at h
          cases hpc : env.parseConstraints cons with
          | some e => simp only [hpc] at h; simp at h
          | none =>
            simp only [hpc] at h
            by_cases hct : (ct == "") = true
            · rw [if_pos hct] at h
              cases ham : env.addMachines
                  { series := series, constraintsStr := cons,
                    containerType := ct, parentId := "" } with
              | error e => simp only [ham] at h; simp at h
              | ok r3 =>
                cases r3 with
                | error e => simp only [ham] at h; simp at h
                | ok machine =>
                  simp only [ham, Option.some.injEq, Prod.mk.injEq, and_true] at h
                  subst h
                  exact ⟨machine, rfl⟩
            · rw [if_neg hct] at h
              cases hpt : env.parseContainerType ct with
              | some e => simp only [hpt] at h; simp at h
              | none =>
                simp only [hpt] at h
                by_cases hpid : (pid == "") = true
                · rw [if_pos hpid] at h
                  cases ham : env.addMachines
                      { series := series, constraintsStr := cons,
                        containerType := ct, parentId := "" } with
                  | error e => simp only [ham] at h; simp at h
                  | ok r3 =>
                    cases r3 with
                    | error e => simp only [ham] at h; simp at h
                    | ok machine =>
                      simp only [ham, Option.some.injEq, Prod.mk.injEq, and_true] at h
                      subst h
                      exact ⟨machine, rfl⟩
                · rw [if_neg hpid] at h
                  cases hrm : resolveMachine pid s.results s.unitStatus s.stream with
                  | none => simp only [hrm] at h; simp at h
                  | some r2 =>
                    cases r2 with
                    | error e => simp only [hrm] at h; simp at h
                    | ok tpl =>
                      obtain ⟨parent, us2, st2⟩ := tpl
                      simp only [hrm] at h
                      cases ham : env.addMachines
                          { series := series, constraintsStr := cons,
                            containerType := ct, parentId := parent } with
                      | error e => simp only [ham] at h; simp at h
                      | ok r3 =>
                        cases r3 with
                        | error e => simp only [ham] at h; simp at h
                        | ok machine =>
                          simp only [ham, Option.some.injEq, Prod.mk.injEq, and_true] at h
                          subst h
                          exact ⟨machine, rfl⟩

theorem isAddService_elim {d : ChangeData} (h : d.isAddService = true) :
    ∃ ch sv op, d = .addService ch sv op := by
  cases d
  case addService ch sv op => exact ⟨ch, sv, op, rfl⟩
  all_goals simp [ChangeData.isAddService] at h

/-- On a success, a handler writes the results table only at its own
change id, or — for AddCharm — at `resolved-<reference>` with a non-empty
value; an AddService success records exactly its service name. -/
theorem applyOne_results_shape (env : Env) (all : List Change) (s : DeployState)
    (c : Change) (s' : DeployState) (h : applyOne env all s c = some (s', none)) :
    (∀ k, k ≠ c.id → (∀ ch, c.data = .addCharm ch → k ≠ "resolved-" ++ ch) →
      lookupD s'.results k = lookupD s.results k) ∧
    (∀ ch svc opts, c.data = .addService ch svc opts → lookupD s'.results c.id = svc) ∧
    (∀ ch, c.data = .addCharm ch → lookupD s'.results ("resolved-" ++ ch) ≠ "") := by
  cases hd : c.data with
  | addCharm ch =>
    simp only [applyOne, hd] at h
    obtain ⟨v, hv, hres⟩ := handleAddCharm_results env s ch s' h
    refine ⟨?_, ?_, ?_⟩
    · intro k hk hk2
      rw [hres, lookupD_setKey, if_neg (hk2 ch rfl)]
    · intro ch2 svc opts hdata
      exact absurd hdata (by simp)
    · intro ch2 hdata
      injection hdata with h1
      subst h1
      rw [hres, lookupD_setKey, if_pos rfl]
      exact hv
  | addService ch svc opts =>
    simp only [applyOne, hd] at h
    have hres := handleAddService_results env s c.id ch svc opts s' h
    refine ⟨?_, ?_, ?_⟩
    · intro k hk _
      rw [hres, lookupD_setKey, if_neg hk]
    · intro ch2 svc2 opts2 hdata
      injection hdata with h1 h2 h3
      subst h2
      rw [hres, lookupD_setKey, if_pos rfl]
    · intro ch2 hdata
      exact absurd hdata (by simp)
  | addMachine a b d2 e2 =>
    simp only [applyOne, hd] at h
    obtain ⟨v, hres⟩ := handleAddMachine_results env all s c.id a b d2 e2 s' h
    refine ⟨?_, ?_, ?_⟩
    · intro k hk _
      rw [hres, lookupD_setKey, if_neg hk]
    · intro ch2 svc2 opts2 hdata
      exact absurd hdata (by simp)
    · intro ch2 hdata
      exact absurd hdata (by simp)
  | addUnit svcp toSpec =>
    simp only [applyOne, hd] at h
    obtain ⟨v, hres⟩ := handleAddUnit_results env s c.id svcp toSpec s' h
    refine ⟨?_, ?_, ?_⟩
    · intro k hk _
      rw [hres, lookupD_setKey, if_neg hk]
    · intro ch2 svc2 opts2 hdata
      exact absurd hdata (by simp)
    · intro ch2 hdata
      exact absurd hdata (by simp)
  | addRelation e1 e2 =>
    simp only [applyOne, hd] at h
    have hres := handleAddRelation_results env s e1 e2 s' h
    refine ⟨?_, ?_, ?_⟩
    · intro k _ _
      rw [hres]
    · intro ch2 svc2 opts2 hdata
      exact absurd hdata (by simp)
    · intro ch2 hdata
      exact absurd hdata (by simp)
  | setAnnotations =>
    simp only [applyOne, hd] at h
    simp only [Option.some.injEq, Prod.mk.injEq, and_true] at h
    subst h
    refine ⟨fun _ _ _ => rfl, ?_, ?_⟩
    · intro ch2 svc2 opts2 hdata
      exact absurd hdata (by simp)
    · intro ch2 hdata
      exact absurd hdata (by simp)

/-- A key that no change of the executed suffix writes keeps its value
through the run. -/
theorem runChanges_keeps_key (env : Env) (all : List Change) :
    ∀ (cs : List Change) (s0 sEnd : DeployState) (k : String),
      (∀ c' ∈ cs, k ≠ c'.id) →
      (∀ c' ∈ cs, ∀ ch, c'.data = .addCharm ch → k ≠ "resolved-" ++ ch) →
      runChanges env all cs s0 = some (sEnd, none) →
      lookupD sEnd.results k = lookupD s0.results k := by
  intro cs
  induction cs with
  | nil =>
    intro s0 sEnd k _ _ hrun
    simp only [runChanges, Option.some.injEq, Prod.mk.injEq, and_true] at hrun
    rw [hrun]
  | cons c cs2 ih =>
    intro s0 sEnd k h1 h2 hrun
    simp only [runChanges] at hrun
    cases happ : applyOne env all s0 c with
    | none => simp only [happ] at hrun; simp at hrun
    | some pr =>
      obtain ⟨s1, err⟩ := pr
      cases err with
      | some e => simp only [happ] at hrun; simp at hrun
      | none =>
        simp only [happ] at hrun
        have hstep := (applyOne_results_shape env all s0 c s1 happ).1 k
          (h1 c (List.mem_cons_self _ _)) (h2 c (List.mem_cons_self _ _))
        have hrest := ih s1 sEnd k (fun c' hc' => h1 c' (List.mem_cons_of_mem _ hc'))
          (fun c' hc' => h2 c' (List.mem_cons_of_mem _ hc')) hrun
        rw [hrest, hstep]

/-- After a successful run of a prefix whose change ids are unique, do
not start with `resolved-`, and whose AddCharm references are pairwise
distinct, every applied AddService has left its service name under its
change id and every applied AddCharm a non-empty URL under its
`resolved-` key. -/
theorem runChanges_service_entry (env : Env) (all : List Change) :
    ∀ (pre : List Change) (s0 sEnd : DeployState),
      pre.Pairwise planPairOk →
      (∀ c ∈ pre, strStarts c.id "resolved-" = false) →
      runChanges env all pre s0 = some (sEnd, none) →
      ∀ c ∈ pre,
        (∀ ch svc opts, c.data = .addService ch svc opts →
          lookupD sEnd.results c.id = svc) ∧
        (∀ ch, c.data = .addCharm ch →
          lookupD sEnd.results ("resolved-" ++ ch) ≠ "") := by
  intro pre
  induction pre with
  | nil => intro s0 sEnd _ _ _ c hc; cases hc
  | cons c0 cs ih =>
    intro s0 sEnd hpw hnr hrun
    simp only [runChanges] at hrun
    cases happ : applyOne env all s0 c0 with
    | none => simp only [happ] at hrun; simp at hrun
    | some pr =>
      obtain ⟨s1, err⟩ := pr
      cases err with
      | some e => simp only [happ] at hrun; simp at hrun
      | none =>
        simp only [happ] at hrun
        obtain ⟨hshape1, hshape2, hshape3⟩ := applyOne_results_shape env all s0 c0 s1 happ
        have hpw2 := List.pairwise_cons.mp hpw
        intro c hc
        cases hc with
        | head =>
          constructor
          · intro ch svc opts hdata
            have hown := hshape2 ch svc opts hdata
            have hkeep := runChanges_keeps_key env all cs s1 sEnd c0.id
              (fun c' hc' => (hpw2.1 c' hc').1)
              (fun c' hc' ch' hch' =>
                ne_append_of_strStarts_false ch' (hnr c0 (List.mem_cons_self _ _)))
              hrun
            rw [hkeep, hown]
          · intro ch hdata
            have hown := hshape3 ch hdata
            have hkeep := runChanges_keeps_key env all cs s1 sEnd ("resolved-" ++ ch)
              (fun c' hc' =>
                (ne_append_of_strStarts_false ch
                  (hnr c' (List.mem_cons_of_mem _ hc'))).symm)
              (fun c' hc' ch' hch' => by
                have hdc := (hpw2.1 c' hc').2
                rw [hdata, hch'] at hdc
                simp only [distinctCharms] at hdc
                intro heq
                exact absurd (strAppend_left_cancel heq) (bne_iff_ne.mp hdc))
              hrun
            rw [hkeep]
            exact hown
        | tail _ hc2 =>
          exact ih s1 sEnd hpw2.2
            (fun c' hc' => hnr c' (List.mem_cons_of_mem _ hc')) hrun c hc2

/-- C2: In a deployment whose changes satisfy the planner's
structural guarantees, if every change handler before position `i` has
been applied in order and succeeded, then every non-optional placeholder
argument of the change at position `i` — the service placeholder of an
AddUnit, the service placeholders inside both AddRelation endpoints, and
the charm reference looked up by AddService — resolves via the results
table to a non-empty value at the moment that change is applied. -/
theorem deploy_placeholder_soundness (env : Env) (changes : List Change)
    (hwf : WellFormedPlan changes) (i : Fin changes.length) (s0 sEnd : DeployState)
    (hrun : runChanges env changes (changes.take i.val) s0 = some (sEnd, none)) :
    placeholdersResolved sEnd.results (changes.get i).data := by
  obtain ⟨hpw, hnr, hstep⟩ := hwf
  have hpre := runChanges_service_entry env changes (changes.take i.val) s0 sEnd
    (hpw.sublist (List.take_sublist _ _))
    (fun c hc => hnr c (List.take_subset _ _ hc)) hrun
  have hplan := hstep i
  have hsvcne : ∀ c' ∈ changes, ∀ ch sv op, c'.data = .addService ch sv op → sv ≠ "" := by
    intro c' hc' ch sv op hdata
    obtain ⟨n, hn, hgetn⟩ := List.getElem_of_mem hc'
    have h2 := hstep ⟨n, hn⟩
    rw [List.get_eq_getElem] at h2
    rw [hgetn, hdata] at h2
    simp only [planStepOk] at h2
    exact h2.1
  cases hd : (changes.get i).data with
  | addCharm ch => simp [placeholdersResolved]
  | addMachine a b d2 e2 => simp [placeholdersResolved]
  | setAnnotations => simp [placeholdersResolved]
  | addService ch svc opts =>
    rw [hd] at hplan
    simp only [planStepOk] at hplan
    obtain ⟨hsvne, c', hc', hcdata⟩ := hplan
    simp only [placeholdersResolved]
    exact (hpre c' hc').2 ch hcdata
  | addUnit svcp toSpec =>
    rw [hd] at hplan
    simp only [planStepOk] at hplan
    obtain ⟨c', hc', hsvc', heq⟩ := hplan
    obtain ⟨ch, sv, op, hcdata⟩ := isAddService_elim hsvc'
    have hlook := (hpre c' hc').1 ch sv op hcdata
    have hne := hsvcne c' (List.take_subset _ _ hc') ch sv op hcdata
    simp only [placeholdersResolved]
    refine ⟨sv, ?_, hne⟩
    rw [heq, resolve_dollar, hlook]
  | addRelation e1 e2 =>
    rw [hd] at hplan
    simp only [planStepOk] at hplan
    have hep : ∀ e, EndpointRefs (changes.take i.val) e →
        endpointResolves sEnd.results e := by
      intro e he
      obtain ⟨c', hc', hsvc', hhead⟩ := he
      obtain ⟨ch, sv, op, hcdata⟩ := isAddService_elim hsvc'
      have hlook := (hpre c' hc').1 ch sv op hcdata
      have hne := hsvcne c' (List.take_subset _ _ hc') ch sv op hcdata
      have hheadD : (splitStr e ':').headD "" = "$" ++ c'.id := by
        rw [List.headD_eq_head?, hhead]
        rfl
      refine ⟨sv, ?_, hne⟩
      rw [hheadD, resolve_dollar, hlook]
    simp only [placeholdersResolved]
    exact ⟨hep e1 hplan.1, hep e2 hplan.2⟩

/-- Witness for C2: the wordpress-simple style plan, evaluated up to its
AddUnit change after successfully applying the AddCharm and AddService
changes before it. -/
theorem deploy_placeholder_soundness_witness :
    ∃ sEnd, runChanges sampleEnv
        [⟨"addCharm-0", [], .addCharm "cs:trusty/mysql-42"⟩,
         ⟨"deploy-1", ["addCharm-0"], .addService "cs:trusty/mysql-42" "mysql" []⟩,
         ⟨"addUnit-2", ["deploy-1"], .addUnit "$deploy-1" ""⟩]
        (([⟨"addCharm-0", [], .addCharm "cs:trusty/mysql-42"⟩,
           ⟨"deploy-1", ["addCharm-0"], .addService "cs:trusty/mysql-42" "mysql" []⟩,
           ⟨"addUnit-2", ["deploy-1"], .addUnit "$deploy-1" ""⟩] : List Change).take 2)
        emptyState = some (sEnd, none) ∧
      placeholdersResolved sEnd.results
        (([⟨"addCharm-0", [], .addCharm "cs:trusty/mysql-42"⟩,
           ⟨"deploy-1", ["addCharm-0"], .addService "cs:trusty/mysql-42" "mysql" []⟩,
           ⟨"addUnit-2", ["deploy-1"], .addUnit "$deploy-1" ""⟩] : List Change).get
          ⟨2, by decide⟩).data := by
  refine ⟨_, rfl, ?_⟩
  exact deploy_placeholder_soundness sampleEnv
    ([⟨"addCharm-0", [], .addCharm "cs:trusty/mysql-42"⟩,
      ⟨"deploy-1", ["addCharm-0"], .addService "cs:trusty/mysql-42" "mysql" []⟩,
      ⟨"addUnit-2", ["deploy-1"], .addUnit "$deploy-1" ""⟩] : List Change)
    (by decide) ⟨2, by decide⟩ emptyState _ rfl

end Juju
